import Mathlib

/-!  Shallow embedding of the AF_XDP packet I/O core of `smoltcp-contrib`:
the UMEM chunk pool (`src/phy/xdp/umem.rs`), the SPSC kernel rings
(`src/phy/xdp/rings.rs`) and the device adapter (`src/phy/xdp.rs`).

Machine integers are modelled as `Nat` with explicit reductions where the
source performs a cast or relies on wrapping (`as u16` becomes `% 65536`,
u32 wrapping subtraction becomes addition of `2 ^ 32` before `%`).  Code
that can panic (out-of-bounds indexing, slice-length mismatches, integer
underflow in debug builds) is modelled with `Option` / `Except`, the
failure constructor standing for the Rust panic. -/

/-- Descriptor type `libc::xdp_desc`: `addr : u64`, `len : u32`, `options : u32`. -/
structure XdpDesc where
  addr : Nat
  len : Nat
  options : Nat
  deriving Repr, DecidableEq

/-- The zeroed descriptor; freshly mmapped (`MAP_POPULATE`) ring slots read as zero. -/
instance : Inhabited XdpDesc := ⟨⟨0, 0, 0⟩⟩

/-- Byte size of the Rust struct `HeadRoom` (a single `u16`), i.e.
`std::mem::size_of::<HeadRoom>()`. -/
def head_room_size : Nat := 2

/-- The sentinel `u16::MAX`. -/
def u16_max : Nat := 65535

/-- Modulus of 16-bit machine integers. -/
def u16_mod : Nat := 65536

/-- Modulus of 32-bit machine integers. -/
def u32_mod : Nat := 2 ^ 32

/-- The `HeadRoom` word is a bare `u16`; `free_page_id()` decodes the sentinel
`u16::MAX` as `None`. -/
def HeadRoom.free_page_id (h : Nat) : Option Nat :=
  if h = u16_max then none else some h

/-- `set_free_page_id(page_id)` stores `page_id.unwrap_or(u16::MAX)` into the word. -/
def HeadRoom.set_free_page_id (page_id : Option Nat) : Nat :=
  page_id.getD u16_max

/-- `UmemPage`: the headroom word (`h`, exclusively user-owned) and the payload
region `buffer` of `alignment - head_room_size` bytes. -/
structure UmemPage where
  h : Nat
  buffer : List Nat
  deriving Repr, DecidableEq

instance : Inhabited UmemPage := ⟨⟨0, []⟩⟩

/-- `UmemPage::read_packet(desc)`: offset is
`(desc.addr as usize % umem_page_len) - size_of::<HeadRoom>()` and the result is
`&buffer[offset .. offset + desc.len]`.  The usize subtraction underflowing and the
slice range check failing (both Rust panics) are modelled as `none`. -/
def UmemPage.read_packet (page : UmemPage) (desc : XdpDesc) : Option (List Nat) :=
  let umem_page_len := head_room_size + page.buffer.length
  let m := desc.addr % umem_page_len
  if m < head_room_size then none
  else
    let offset := m - head_room_size
    if offset + desc.len ≤ page.buffer.length then
      some ((page.buffer.drop offset).take desc.len)
    else none

/-- `UmemPage::write_packet(buf)` copies `buf` over the start of the payload;
`self.buffer[..buf.len()]` panics (`none`) when `buf` is longer than the payload. -/
def UmemPage.write_packet (page : UmemPage) (buf : List Nat) : Option UmemPage :=
  if buf.length ≤ page.buffer.length then
    some { page with buffer := buf ++ page.buffer.drop buf.length }
  else none

/-- `ChunkAlignment`: the two permitted chunk sizes. -/
inductive ChunkAlignment
  | TwoK
  | FourK
  deriving Repr, DecidableEq

/-- `usize::from(ChunkAlignment)`. -/
def ChunkAlignment.toNat : ChunkAlignment → Nat
  | .TwoK => 2048
  | .FourK => 4096

/-- `umem::Config` with `entries` and chunk `alignment`. -/
structure UmemConfig where
  entries : Nat
  alignment : ChunkAlignment
  deriving Repr

/-- The `Umem` pool.  `base_addr` carries no information in the model (descriptor
addresses in the source are offsets `page_id * alignment + head_room_size` relative
to the pool, computed without the base), so it is omitted; `pages` is the boxed
slice of page views and `free_page_id` the optional `u16` head of the free list. -/
structure Umem where
  pages : List UmemPage
  alignment : Nat
  free_page_id : Option Nat
  deriving Repr, DecidableEq

instance : Inhabited Umem := ⟨⟨[], 0, none⟩⟩

/-- Errors of the fallible `Umem` operations: `wouldBlock` is
`io::ErrorKind::WouldBlock`; `panic` stands for a Rust panic (out-of-bounds
`self.pages[i]` or a slice-length mismatch in `write_packet`). -/
inductive UmemErr
  | wouldBlock
  | panic
  deriving Repr, DecidableEq

/-- Construction errors of `Umem::new` / ring building: `invalidInput` is
`io::ErrorKind::InvalidInput`, `allocFailure` is the `last_os_error` path taken
when the allocator returns null, `panic` a Rust panic (usize overflow). -/
inductive NewErr
  | invalidInput
  | allocFailure
  | panic
  deriving Repr, DecidableEq

/-- Success condition of `Layout::from_size_align(size, align)`: `align` must be a
power of two and `size`, rounded up to `align`, must not overflow `isize::MAX`. -/
def layout_from_size_align_ok (size align : Nat) : Bool :=
  (decide (align ≠ 0) && decide (Nat.land align (align - 1) = 0)) &&
    decide (size + align - 1 ≤ 2 ^ 63 - 1)

/-- `Umem::new(config)`.  The allocator outcome is the external parameter
`alloc_ok` (`false` models `std::alloc::alloc` returning null).  Note that the
source validates `entries` and `alignment` only through
`Layout::from_size_align(entries * alignment, alignment)`, whose error is mapped
to `InvalidInput`; there is no dedicated `entries == 0` check.  Page `i` gets the
headroom link `Some((i + 1) as u16)` except for the last page, which gets `None`;
`free_page_id` starts at `Some(0)`. -/
def Umem.new (config : UmemConfig) (alloc_ok : Bool) : Except NewErr Umem :=
  let align := config.alignment.toNat
  if config.entries * align ≥ 2 ^ 64 then .error .panic
  else if ¬ layout_from_size_align_ok (config.entries * align) align then
    .error .invalidInput
  else if ¬ alloc_ok then .error .allocFailure
  else
    .ok
      { pages :=
          (List.range config.entries).map fun i =>
            { h :=
                HeadRoom.set_free_page_id
                  (if i = config.entries - 1 then none else some ((i + 1) % u16_mod))
              buffer := List.replicate (align - head_room_size) 0 }
        alignment := align
        free_page_id := some 0 }

/-- `Umem::page_id_from(desc)` is `desc.addr as usize / self.alignment`. -/
def Umem.page_id_from (u : Umem) (desc : XdpDesc) : Nat :=
  desc.addr / u.alignment

/-- `Umem::desc_addr_from(page_id)` is `page_id * alignment + size_of::<HeadRoom>()`. -/
def Umem.desc_addr_from (u : Umem) (page_id : Nat) : Nat :=
  page_id * u.alignment + head_room_size

/-- `Umem::free(page_id)`: push `page_id` onto the free list.  The old head is
written into the page's headroom only when it is `Some`; the new head is
`Some(page_id as u16)`.  Returns the full-payload descriptor for the page.
`none` models the panic of `self.pages[page_id]` when `page_id` is out of range. -/
def Umem.free (u : Umem) (page_id : Nat) : Option (XdpDesc × Umem) :=
  match u.pages[page_id]? with
  | none => none
  | some page =>
    let last_free_page_id := u.free_page_id
    let page :=
      if last_free_page_id.isSome then
        { page with h := HeadRoom.set_free_page_id last_free_page_id }
      else page
    some
      ({ addr := u.desc_addr_from page_id
         len := u.alignment - head_room_size
         options := 0 },
       { u with
          pages := u.pages.set page_id page
          free_page_id := some (page_id % u16_mod) })

/-- `Umem::write(buf)`: pop the head of the free list (`WouldBlock` when empty),
record its link as the new head, clear the popped page's link, copy `buf` into the
payload and return a descriptor with `len = buf.len()`. -/
def Umem.write (u : Umem) (buf : List Nat) : Except UmemErr (XdpDesc × Umem) :=
  match u.free_page_id with
  | none => .error .wouldBlock
  | some val =>
    match u.pages[val]? with
    | none => .error .panic
    | some page =>
      let next_free_page_id := HeadRoom.free_page_id page.h
      let page := { page with h := HeadRoom.set_free_page_id none }
      match page.write_packet buf with
      | none => .error .panic
      | some page =>
        .ok
          ({ addr := u.desc_addr_from val, len := buf.length, options := 0 },
           { u with
              pages := u.pages.set val page
              free_page_id := next_free_page_id })

/-- `Umem::packet_descriptors()`: the canonical full-payload descriptor of every page. -/
def Umem.packet_descriptors (u : Umem) : List XdpDesc :=
  (List.range u.pages.length).map fun page_id =>
    { addr := u.desc_addr_from page_id
      len := u.alignment - head_room_size
      options := 0 }

/-- Free-list traversal with explicit fuel: follow the headroom links from `cur`,
failing (`none`) when an index is out of range or the fuel runs out before the
list terminates. -/
def free_list_aux (links : List Nat) : Option Nat → Nat → Option (List Nat)
  | none, _ => some []
  | some _, 0 => none
  | some i, fuel + 1 =>
    match links[i]? with
    | none => none
    | some w =>
      match free_list_aux links (HeadRoom.free_page_id w) fuel with
      | none => none
      | some l => some (i :: l)

/-- The free list of a pool, traversed with fuel `pages.len()` (the spec demands
termination within `entries` steps); depends only on the headroom words. -/
def Umem.free_list (u : Umem) : Option (List Nat) :=
  free_list_aux (u.pages.map fun p => p.h) u.free_page_id u.pages.length

/-- Well-formedness of the page array: the alignment is one of the real chunk
sizes (so in particular `head_room_size < alignment`), there are at most
`u16_mod` pages (so page ids survive the `as u16` casts), and every payload has
its full `alignment - head_room_size` size. -/
def Umem.buffers_wf (u : Umem) : Prop :=
  head_room_size < u.alignment ∧ u.pages.length ≤ u16_mod ∧
    ∀ page ∈ u.pages, page.buffer.length = u.alignment - head_room_size

instance (u : Umem) : Decidable u.buffers_wf := by
  unfold Umem.buffers_wf; infer_instance

/-- The free head, when present, indexes into the page array. -/
def Umem.head_wf (u : Umem) : Bool :=
  match u.free_page_id with
  | none => true
  | some i => decide (i < u.pages.length)

/-- Wrapping 32-bit subtraction `p.wrapping_sub(c)` for `p, c < u32_mod`. -/
def u32_wrapping_sub (p c : Nat) : Nat :=
  (p + u32_mod - c) % u32_mod

/-- Ring-write failure: `io::ErrorKind::WouldBlock` (backpressure). -/
inductive RingErr
  | wouldBlock
  deriving Repr, DecidableEq

/-- `XdpRing`: the user-visible state of one mmapped SPSC ring — the two `u32`
counters, the descriptor slot array of `size = mask + 1` entries, and
`mask = size - 1`.  The `type_` tag and the raw pointers carry no further
information in the model. -/
structure XdpRing where
  consumer : Nat
  producer : Nat
  descriptors : List XdpDesc
  mask : Nat
  deriving Repr, DecidableEq

/-- `XdpRing::size()` is `mask + 1`. -/
def XdpRing.size (r : XdpRing) : Nat :=
  r.mask + 1

/-- `XdpRing::<Reader>::read()`: snapshot `c` and `p`; if `c == p` return `None`;
otherwise return the slot at `c & mask` and advance `consumer` by one (a `u32`
increment).  The slot load is a raw-pointer read with no bound check; since
`c & mask <= mask < size`, `getD` with the zero descriptor is exact whenever the
slot array has its full `size` length. -/
def XdpRing.read (r : XdpRing) : Option (XdpDesc × XdpRing) :=
  let c := r.consumer
  let p := r.producer
  if c = p then none
  else
    let idx := Nat.land c r.mask
    some (r.descriptors.getD idx default, { r with consumer := (c + 1) % u32_mod })

/-- `XdpRing::<Writer>::write(desc)`: snapshot `c` and `p`; if `(p - c)` (wrapping
u32 subtraction) exceeds `mask`, fail with `WouldBlock` leaving the ring untouched;
otherwise store `desc` at `p & mask` and advance `producer` by one. -/
def XdpRing.write (r : XdpRing) (desc : XdpDesc) : Except RingErr XdpRing :=
  let c := r.consumer
  let p := r.producer
  if u32_wrapping_sub p c > r.mask then .error .wouldBlock
  else
    let idx := Nat.land p r.mask
    .ok
      { r with
         descriptors := r.descriptors.set idx desc
         producer := (p + 1) % u32_mod }

/-- Descriptors currently pending on a ring: the slots from `consumer`
(inclusive) up to `producer` (exclusive), in FIFO order. -/
def XdpRing.pending (r : XdpRing) : List XdpDesc :=
  (List.range (u32_wrapping_sub r.producer r.consumer)).map fun k =>
    r.descriptors.getD (Nat.land ((r.consumer + k) % u32_mod) r.mask) default

/-- `rings::build`: reject a size that is not a power of two (`InvalidInput`);
otherwise the freshly mmapped ring starts with both counters at zero and zeroed
slots (the mmap itself and the offset query are kernel interactions abstracted as
succeeding). -/
def XdpRing.build (size : Nat) : Except NewErr XdpRing :=
  if decide (size ≠ 0) && decide (Nat.land size (size - 1) = 0) then
    .ok
      { consumer := 0
        producer := 0
        descriptors := List.replicate size default
        mask := size - 1 }
  else .error .invalidInput

/-- `rings::Config` is a bare ring size; `xdp::Config` collects the queue id (not
modelled), the UMEM config and the four ring sizes. -/
structure XdpConfig where
  umem : UmemConfig
  tx : Nat
  rx : Nat
  cr : Nat
  fr : Nat
  deriving Repr

/-- The `Inner` state of an `XdpSocket`: the pool and the four rings. -/
structure XdpInner where
  umem : Umem
  tx : XdpRing
  rx : XdpRing
  cr : XdpRing
  fr : XdpRing
  deriving Repr, DecidableEq

instance : Inhabited XdpInner :=
  ⟨⟨default, ⟨0, 0, [], 0⟩, ⟨0, 0, [], 0⟩, ⟨0, 0, [], 0⟩, ⟨0, 0, [], 0⟩⟩⟩

/-- The Fill-ring preload loop of `XdpSocket::new`: each descriptor of
`umem.packet_descriptors()` is written with `let _ = fr.write(desc)`, ignoring a
`WouldBlock` (which leaves the ring unchanged). -/
def preload_fill (fr : XdpRing) (descs : List XdpDesc) : XdpRing :=
  descs.foldl
    (fun r desc =>
      match r.write desc with
      | .ok r' => r'
      | .error _ => r)
    fr

/-- The state-constructing core of `XdpSocket::new`: build the UMEM, the four
rings (TX and Fill as writers, RX and Completion as readers), and preload the
Fill ring with the canonical descriptor of every page.  The socket syscalls
(open, bind_umem, bind_ring, offsets, bind_interface) are kernel interactions
abstracted as succeeding; `alloc_ok` is the allocator outcome. -/
def XdpSocket.new_inner (config : XdpConfig) (alloc_ok : Bool) : Except NewErr XdpInner := do
  let umem ← Umem.new config.umem alloc_ok
  let tx ← XdpRing.build config.tx
  let rx ← XdpRing.build config.rx
  let cr ← XdpRing.build config.cr
  let fr ← XdpRing.build config.fr
  let fr := preload_fill fr umem.packet_descriptors
  return { umem := umem, tx := tx, rx := rx, cr := cr, fr := fr }

/-- `Device::receive` on `XdpSocket`: try `rx.read()`; on a descriptor, compute
the page id, copy the payload out with `read_packet` (`to_vec`), return the chunk
to the free list with `umem.free(page_id)` and re-post the resulting descriptor
on the Fill ring, ignoring a Fill-ring `WouldBlock`.  `.error .panic` models the
panics of `self.pages[page_id]` / `read_packet` on malformed descriptors. -/
def XdpSocket.receive (s : XdpInner) : Except UmemErr (Option (List Nat × XdpInner)) :=
  match s.rx.read with
  | none => .ok none
  | some (desc, rx') =>
    let page_id := s.umem.page_id_from desc
    match s.umem.pages[page_id]? with
    | none => .error .panic
    | some page =>
      match page.read_packet desc with
      | none => .error .panic
      | some data =>
        match s.umem.free page_id with
        | none => .error .panic
        | some (fdesc, umem') =>
          let fr' :=
            match s.fr.write fdesc with
            | .ok r => r
            | .error _ => s.fr
          .ok (some (data, { s with umem := umem', rx := rx', fr := fr' }))

/-- The Completion-ring drain at the head of `TxToken::consume`: read at most one
descriptor from `cr` and free the corresponding chunk (the returned descriptor is
discarded). -/
def cr_drain (s : XdpInner) : Option XdpInner :=
  match s.cr.read with
  | none => some s
  | some (desc, cr') =>
    let page_id := s.umem.page_id_from desc
    match s.umem.free page_id with
    | none => none
    | some (_, umem') => some { s with umem := umem', cr := cr' }

/-- `TxToken::consume(len, f)`: zero a buffer of `len` bytes, run `f` on it
(modelled as returning the result and the mutated buffer), drain one Completion
descriptor, then allocate a chunk with `umem.write`.  On success publish the
descriptor on the TX ring, returning the chunk to the pool when the TX ring is
full; on `WouldBlock` silently drop the frame; any other failure is the
`panic!` arm. -/
def TxToken.consume {α : Type} (s : XdpInner) (len : Nat) (f : List Nat → α × List Nat) :
    Except UmemErr (α × XdpInner) :=
  let res := f (List.replicate len 0)
  let result := res.1
  let buffer := res.2
  match cr_drain s with
  | none => .error .panic
  | some s =>
    match s.umem.write buffer with
    | .ok (desc, umem') =>
      match s.tx.write desc with
      | .ok tx' => .ok (result, { s with umem := umem', tx := tx' })
      | .error _ =>
        let page_id := umem'.page_id_from desc
        match umem'.free page_id with
        | none => .error .panic
        | some (_, umem2) => .ok (result, { s with umem := umem2 })
    | .error .wouldBlock => .ok (result, s)
    | .error .panic => .error .panic

/-- Precondition on the Completion ring used by the TX-absorption theorem: a
pending Completion descriptor names an in-range page (the spec treats kernel
descriptors outside the UMEM as a kernel bug that is not defended against). -/
def XdpInner.cr_ok (s : XdpInner) : Bool :=
  match s.cr.read with
  | none => true
  | some (desc, _) => decide (s.umem.page_id_from desc < s.umem.pages.length)

/-- A synthetic kernel step: move one pending Fill descriptor onto the RX ring
(the kernel consumes Fill and produces RX; both sides follow the same
counter/slot protocol). -/
def kernel_move_fill_to_rx (s : XdpInner) : Option XdpInner :=
  match s.fr.read with
  | none => none
  | some (desc, fr') =>
    match s.rx.write desc with
    | .ok rx' => some { s with fr := fr', rx := rx' }
    | .error _ => none

/-- Configuration of the concrete construction trace: two chunks of 2048 bytes,
all four rings of size 4. -/
def c1_config : XdpConfig :=
  { umem := { entries := 2, alignment := .TwoK }, tx := 4, rx := 4, cr := 4, fr := 4 }

/-- The adapter state immediately after `XdpSocket::new` with `c1_config`
(allocator succeeding, fresh kernel rings). -/
def c1_state : XdpInner :=
  match XdpSocket.new_inner c1_config true with
  | .ok s => s
  | .error _ => default

/-- The state after the kernel moves the first pending Fill descriptor (page 0)
onto the RX ring. -/
def c2_state_kernel : XdpInner :=
  (kernel_move_fill_to_rx c1_state).getD default

/-- The outcome of `Device::receive` on that state. -/
def c2_receive_result : Except UmemErr (Option (List Nat × XdpInner)) :=
  XdpSocket.receive c2_state_kernel

/-- The adapter state after that `receive`. -/
def c2_state_after : XdpInner :=
  match c2_receive_result with
  | .ok (some (_, s)) => s
  | _ => default

/-- A freshly constructed two-page pool with 2048-byte chunks. -/
def umem2 : Umem :=
  match Umem.new { entries := 2, alignment := .TwoK } true with
  | .ok u => u
  | .error _ => default

/-- A fresh ring of size 4. -/
def ring4 : XdpRing :=
  { consumer := 0, producer := 0, descriptors := List.replicate 4 default, mask := 3 }

/-- A small concrete adapter state used to instantiate the TX-absorption theorem. -/
def sys2 : XdpInner :=
  { umem := umem2, tx := ring4, rx := ring4, cr := ring4, fr := ring4 }

/-- Helper: writing back the element a list already holds at an index leaves the
list unchanged. -/
theorem list_set_of_getElem_eq {α : Type} (l : List α) (i : Nat) (a : α)
    (h : l[i]? = some a) : l.set i a = l := by
  have hlt : i < l.length := by
    by_contra hh
    push_neg at hh
    rw [List.getElem?_eq_none hh] at h
    cases h
  apply List.ext_getElem?
  intro n
  rw [List.getElem?_set]
  by_cases hn : i = n
  · subst hn
    rw [if_pos rfl, if_pos hlt, h]
  · simp [hn]

/-- Helper: characterization of a successful `Umem::write` pop. -/
theorem umem_write_eq_ok (u : Umem) (buf : List Nat) (i : Nat) (page : UmemPage)
    (hhead : u.free_page_id = some i) (hpage : u.pages[i]? = some page)
    (hfit : buf.length ≤ page.buffer.length) :
    u.write buf = .ok
      ({ addr := i * u.alignment + head_room_size, len := buf.length, options := 0 },
       { u with
          pages := u.pages.set i
            { h := u16_max, buffer := buf ++ page.buffer.drop buf.length }
          free_page_id := HeadRoom.free_page_id page.h }) := by
  simp only [Umem.write, hhead, hpage]
  simp [UmemPage.write_packet, hfit, HeadRoom.set_free_page_id, Umem.desc_addr_from]

/-- Helper: characterization of `Umem::free` on an in-range page. -/
theorem umem_free_eq_some (u : Umem) (page_id : Nat) (page : UmemPage)
    (hpage : u.pages[page_id]? = some page) :
    u.free page_id = some
      ({ addr := page_id * u.alignment + head_room_size,
         len := u.alignment - head_room_size, options := 0 },
       { u with
          pages := u.pages.set page_id
            (if u.free_page_id.isSome then
              { page with h := HeadRoom.set_free_page_id u.free_page_id }
             else page)
          free_page_id := some (page_id % u16_mod) }) := by
  simp only [Umem.free, hpage]
  simp [Umem.desc_addr_from]

/-- Helper: the canonical address of page `i` divides back to `i`. -/
theorem page_id_from_canonical (u : Umem) (i len opts : Nat)
    (hal : head_room_size < u.alignment) :
    u.page_id_from
      { addr := i * u.alignment + head_room_size, len := len, options := opts } = i := by
  unfold Umem.page_id_from
  show (i * u.alignment + head_room_size) / u.alignment = i
  rw [Nat.mul_comm, Nat.mul_add_div (by omega)]
  simp [Nat.div_eq_of_lt hal]

/-- Helper: an in-range index of a well-formed pool yields a full-size page. -/
theorem buffers_wf_getElem (u : Umem) (i : Nat) (h : u.buffers_wf)
    (hi : i < u.pages.length) :
    ∃ page, u.pages[i]? = some page ∧
      page.buffer.length = u.alignment - head_room_size := by
  refine ⟨u.pages[i], List.getElem?_eq_getElem hi, ?_⟩
  exact h.2.2 _ (List.getElem_mem hi)

/-- C10: for every page id `x < 0xFFFF` the headroom get/set round trip returns
`some x`, and `set_free_page_id none` reads back `none`; but at the boundary
`x = 0xFFFF` the stored word collides with the sentinel, so the read returns
`none` instead of `some 0xFFFF`. -/
theorem c10_headroom_sentinel_boundary :
    (∀ x : Nat, x < u16_max →
      HeadRoom.free_page_id (HeadRoom.set_free_page_id (some x)) = some x) ∧
    HeadRoom.free_page_id (HeadRoom.set_free_page_id none) = none ∧
    HeadRoom.free_page_id (HeadRoom.set_free_page_id (some u16_max)) = none := by
  refine ⟨fun x hx => ?_, by decide, by decide⟩
  simp [HeadRoom.free_page_id, HeadRoom.set_free_page_id, Nat.ne_of_lt hx]

/-- Witness for C10 at the concrete page id 7. -/
theorem c10_headroom_sentinel_boundary_witness :
    7 < u16_max ∧
      HeadRoom.free_page_id (HeadRoom.set_free_page_id (some 7)) = some 7 :=
  ⟨by decide, c10_headroom_sentinel_boundary.1 7 (by decide)⟩

/-- C9: for every descriptor satisfying the contract
`head_room_size <= desc.addr % alignment` and
`desc.addr % alignment - head_room_size + desc.len <= alignment - head_room_size`,
`read_packet` returns (without any panic) the payload slice of length `desc.len`
starting at intra-page offset `desc.addr % alignment - head_room_size`. -/
theorem c9_read_packet_total (page : UmemPage) (desc : XdpDesc) (alignment : Nat)
    (hbuf : page.buffer.length = alignment - head_room_size)
    (hal : head_room_size < alignment)
    (h1 : head_room_size ≤ desc.addr % alignment)
    (h2 : desc.addr % alignment - head_room_size + desc.len ≤
      alignment - head_room_size) :
    page.read_packet desc =
      some ((page.buffer.drop (desc.addr % alignment - head_room_size)).take desc.len) ∧
    ∀ out, page.read_packet desc = some out → out.length = desc.len := by
  unfold UmemPage.read_packet
  have hpl : head_room_size + page.buffer.length = alignment := by
    rw [hbuf]
    unfold head_room_size at *
    omega
  rw [hpl]
  rw [if_neg (by omega)]
  rw [if_pos (by omega)]
  refine ⟨rfl, fun out hout => ?_⟩
  have := hout.symm
  cases this
  rw [List.length_take, List.length_drop]
  omega

/-- Witness for C9: a 2048-byte page and the canonical descriptor of page 0 with
a 10-byte packet. -/
theorem c9_read_packet_total_witness :
    let page : UmemPage := { h := u16_max, buffer := List.replicate 2046 0 }
    let desc : XdpDesc := { addr := 2, len := 10, options := 0 }
    page.buffer.length = 2048 - head_room_size ∧
      head_room_size < 2048 ∧
      head_room_size ≤ desc.addr % 2048 ∧
      desc.addr % 2048 - head_room_size + desc.len ≤ 2048 - head_room_size ∧
      page.read_packet desc =
        some ((page.buffer.drop (desc.addr % 2048 - head_room_size)).take desc.len) :=
  ⟨by rw [List.length_replicate]; rfl, by decide, by decide, by decide,
    (c9_read_packet_total _ _ 2048 (by rw [List.length_replicate]; rfl) (by decide) (by decide)
      (by decide)).1⟩

/-- C3: `Writer::write(desc)` fails with would-block (leaving the ring state
untouched: on that path the source returns before any store) exactly when the
wrapping 32-bit difference `producer - consumer` exceeds `mask`; otherwise it
stores `desc` at slot `producer & mask` and advances `producer` by exactly one,
so the write succeeds iff the wrapping difference is strictly below `size`. -/
theorem c3_ring_writer_protocol (r : XdpRing) (desc : XdpDesc)
    (hc : r.consumer < u32_mod) (hp : r.producer < u32_mod) :
    (r.write desc = .error .wouldBlock ↔
      u32_wrapping_sub r.producer r.consumer > r.mask) ∧
    (u32_wrapping_sub r.producer r.consumer ≤ r.mask →
      r.write desc = .ok
        { r with
           descriptors := r.descriptors.set (Nat.land r.producer r.mask) desc
           producer := (r.producer + 1) % u32_mod }) ∧
    ((∃ r', r.write desc = .ok r') ↔
      u32_wrapping_sub r.producer r.consumer < r.size) := by
  unfold XdpRing.write XdpRing.size
  by_cases h : u32_wrapping_sub r.producer r.consumer > r.mask
  · rw [if_pos h]
    refine ⟨by simp [h], fun hle => absurd h (by omega), ?_⟩
    constructor
    · rintro ⟨r', hr'⟩
      cases hr'
    · intro hlt
      omega
  · rw [if_neg h]
    refine ⟨by simp [h], fun _ => rfl, ?_⟩
    constructor
    · intro _
      omega
    · intro _
      exact ⟨_, rfl⟩

/-- Witness for C3: on a fresh size-4 ring (occupancy 0) the write succeeds, and
on a ring with occupancy 4 it would-blocks. -/
theorem c3_ring_writer_protocol_witness :
    (ring4.consumer < u32_mod ∧ ring4.producer < u32_mod ∧
      (ring4.write default = .error .wouldBlock ↔
        u32_wrapping_sub ring4.producer ring4.consumer > ring4.mask)) ∧
    (let full : XdpRing :=
      { consumer := 0, producer := 4, descriptors := List.replicate 4 default, mask := 3 }
     full.consumer < u32_mod ∧ full.producer < u32_mod ∧
      (full.write default = .error .wouldBlock ↔
        u32_wrapping_sub full.producer full.consumer > full.mask)) :=
  ⟨⟨by decide, by decide, (c3_ring_writer_protocol ring4 default (by decide) (by decide)).1⟩,
   ⟨by decide, by decide,
     (c3_ring_writer_protocol _ default (by decide) (by decide)).1⟩⟩

/-- C4: `Reader::read()` returns `none` exactly when `consumer == producer`;
otherwise it returns the slot at `consumer & mask` and advances `consumer` by
exactly one, leaving `producer`, the slot array and `mask` unchanged. -/
theorem c4_ring_reader_protocol (r : XdpRing)
    (hc : r.consumer < u32_mod) (hp : r.producer < u32_mod) :
    (r.read = none ↔ r.consumer = r.producer) ∧
    (r.consumer ≠ r.producer →
      r.read = some (r.descriptors.getD (Nat.land r.consumer r.mask) default,
        { r with consumer := (r.consumer + 1) % u32_mod })) ∧
    (∀ d r', r.read = some (d, r') →
      d = r.descriptors.getD (Nat.land r.consumer r.mask) default ∧
      r'.consumer = (r.consumer + 1) % u32_mod ∧
      r'.producer = r.producer ∧ r'.descriptors = r.descriptors ∧
      r'.mask = r.mask) := by
  unfold XdpRing.read
  by_cases h : r.consumer = r.producer
  · rw [if_pos h]
    exact ⟨by simp [h], fun hne => absurd h hne, fun d r' hdr => by cases hdr⟩
  · rw [if_neg h]
    refine ⟨by simp [h], fun _ => rfl, fun d r' hdr => ?_⟩
    cases hdr
    exact ⟨rfl, rfl, rfl, rfl, rfl⟩

/-- Witness for C4: an empty fresh size-4 ring reads `none`; a ring holding one
pending descriptor reads it back and bumps the consumer. -/
theorem c4_ring_reader_protocol_witness :
    (ring4.consumer < u32_mod ∧ ring4.producer < u32_mod ∧
      (ring4.read = none ↔ ring4.consumer = ring4.producer)) ∧
    (let one : XdpRing :=
      { consumer := 0, producer := 1,
        descriptors := [⟨2, 5, 0⟩, default, default, default], mask := 3 }
     one.consumer ≠ one.producer ∧
      one.read = some (one.descriptors.getD (Nat.land one.consumer one.mask) default,
        { one with consumer := (one.consumer + 1) % u32_mod })) :=
  ⟨⟨by decide, by decide, (c4_ring_reader_protocol ring4 (by decide) (by decide)).1⟩,
   ⟨by decide, (c4_ring_reader_protocol _ (by decide) (by decide)).2.1 (by decide)⟩⟩

/-- Helper: `read_packet` under the canonical-descriptor contract (shared by the
totality theorem and the concrete receive trace). -/
theorem read_packet_spec (page : UmemPage) (desc : XdpDesc) (alignment : Nat)
    (hbuf : page.buffer.length = alignment - head_room_size)
    (hal : head_room_size < alignment)
    (h1 : head_room_size ≤ desc.addr % alignment)
    (h2 : desc.addr % alignment - head_room_size + desc.len ≤
      alignment - head_room_size) :
    page.read_packet desc =
      some ((page.buffer.drop (desc.addr % alignment - head_room_size)).take desc.len) := by
  unfold UmemPage.read_packet
  have hpl : head_room_size + page.buffer.length = alignment := by
    rw [hbuf]
    unfold head_room_size at *
    omega
  rw [hpl]
  rw [if_neg (by omega)]
  rw [if_pos (by omega)]

/-- Helper: characterization of the happy path of `Device::receive`. -/
theorem receive_eq (s : XdpInner) (desc : XdpDesc) (rx' : XdpRing) (page : UmemPage)
    (data : List Nat) (fdesc : XdpDesc) (umem' : Umem)
    (h1 : s.rx.read = some (desc, rx'))
    (h2 : s.umem.pages[s.umem.page_id_from desc]? = some page)
    (h3 : page.read_packet desc = some data)
    (h4 : s.umem.free (s.umem.page_id_from desc) = some (fdesc, umem')) :
    XdpSocket.receive s = .ok (some (data,
      { s with
         umem := umem'
         rx := rx'
         fr :=
           match s.fr.write fdesc with
           | .ok r => r
           | .error _ => s.fr })) := by
  simp only [XdpSocket.receive, h1, h2, h3, h4]

/-- C7 (code evaluated at the failing input `entries = 0`): `Umem::new` with zero
entries does not return the invalid-input error the claim requires — the layout
check `Layout::from_size_align(0, 4096)` succeeds, so construction proceeds (to a
zero-size allocation) and, when the allocator cooperates, yields a pool with no
pages and, nonetheless, `free_head = Some(0)`. -/
theorem c7_new_zero_entries_not_invalid_input :
    ((Umem.new { entries := 0, alignment := .FourK } true).toOption.map
      (fun u => (u.pages.length, u.free_page_id))) = some (0, some 0) := by
  decide

/-- C1 (counterexample state): immediately after `XdpSocket::new` with two pages
and ring size 4, both pages are still threaded on the user-space free list
(`free_list = [0, 1]`) while their descriptors are simultaneously pending on the
Fill ring (pending page ids `[0, 1]`): the Fill-ring preload never pops the pages
off the free list, so every chunk is in two ownership states at once. -/
theorem c1_chunk_double_ownership :
    ((XdpSocket.new_inner c1_config true).toOption.map
        (fun s => (s.umem.free_list, s.fr.pending.map s.umem.page_id_from))) =
      some (some [0, 1], [0, 1]) := by
  decide

/-- C2 (counterexample trace): starting from the freshly constructed socket, the
kernel moves the Fill descriptor of page 0 to the RX ring and the adapter runs
`receive`.  The receive path calls `umem.free(0)` while page 0 is still the free
head, so page 0's headroom link is set to 0: the free list becomes the self-cycle
`0 -> 0 -> ...`, its traversal no longer terminates within `entries` steps
(`free_list = none`), refuting free-list acyclicity. -/
theorem c2_free_list_cycle :
    ∃ data s, XdpSocket.receive c2_state_kernel = .ok (some (data, s)) ∧
      s.umem.free_page_id = some 0 ∧
      (s.umem.pages.map fun page => HeadRoom.free_page_id page.h) = [some 0, none] ∧
      s.umem.free_list = none := by
  have hK : c2_state_kernel =
    { umem :=
        { pages := [{ h := 1, buffer := List.replicate 2046 0 },
                    { h := 65535, buffer := List.replicate 2046 0 }]
          alignment := 2048
          free_page_id := some 0 }
      tx := { consumer := 0, producer := 0, descriptors := List.replicate 4 default, mask := 3 }
      rx := { consumer := 0, producer := 1,
              descriptors := [⟨2, 2046, 0⟩, ⟨0, 0, 0⟩, ⟨0, 0, 0⟩, ⟨0, 0, 0⟩], mask := 3 }
      cr := { consumer := 0, producer := 0, descriptors := List.replicate 4 default, mask := 3 }
      fr := { consumer := 1, producer := 2,
              descriptors := [⟨2, 2046, 0⟩, ⟨2050, 2046, 0⟩, ⟨0, 0, 0⟩, ⟨0, 0, 0⟩],
              mask := 3 } } := rfl
  rw [hK]
  have hpage : ({ h := 1, buffer := List.replicate 2046 0 } : UmemPage).read_packet
      ⟨2, 2046, 0⟩ =
      some (((List.replicate 2046 (0 : Nat)).drop (2 % 2048 - head_room_size)).take 2046) :=
    read_packet_spec _ _ 2048 (by rw [List.length_replicate]; rfl) (by decide) (by decide)
      (by decide)
  refine ⟨_, _, receive_eq _ ⟨2, 2046, 0⟩
    { consumer := 1, producer := 1,
      descriptors := [⟨2, 2046, 0⟩, ⟨0, 0, 0⟩, ⟨0, 0, 0⟩, ⟨0, 0, 0⟩], mask := 3 }
    { h := 1, buffer := List.replicate 2046 0 } _ _ _ rfl rfl hpage rfl, ?_, ?_, ?_⟩
  · rfl
  · rfl
  · rfl

/-- C5: for a well-formed pool whose free head is `Some i`, `write` pops exactly
page `i` (so `page_id_from` of the returned descriptor is `i`), and after
`free(i)` the next `write` returns page `i` again; and the concrete `entries = 2`
scenario: `write b0` yields page 0, `write b1` page 1, `write b2` would-blocks,
and after `free 0` the next write yields page 0 again. -/
theorem c5_write_free_round_trip :
    (∀ (u : Umem) (i : Nat) (buf0 buf1 : List Nat),
      u.buffers_wf → u.free_page_id = some i → i < u.pages.length →
      buf0.length ≤ u.alignment - head_room_size →
      buf1.length ≤ u.alignment - head_room_size →
      ∃ desc u', u.write buf0 = .ok (desc, u') ∧ u.page_id_from desc = i ∧
        ∃ desc2 u2, u'.free i = some (desc2, u2) ∧
          ∃ desc3 u3, u2.write buf1 = .ok (desc3, u3) ∧ u2.page_id_from desc3 = i) ∧
    (∃ d0 u1, umem2.write [7] = .ok (d0, u1) ∧ umem2.page_id_from d0 = 0 ∧
      ∃ d1 u2, u1.write [8] = .ok (d1, u2) ∧ u1.page_id_from d1 = 1 ∧
        u2.write [9] = .error .wouldBlock ∧
        ∃ d2 u4, u2.free 0 = some (d2, u4) ∧
          ∃ d3 u5, u4.write [3] = .ok (d3, u5) ∧ u4.page_id_from d3 = 0) := by
  constructor
  · intro u i buf0 buf1 hwf hhead hi hb0 hb1
    obtain ⟨page, hpage, hplen⟩ := buffers_wf_getElem u i hwf hi
    have hfit0 : buf0.length ≤ page.buffer.length := by omega
    have w0 := umem_write_eq_ok u buf0 i page hhead hpage hfit0
    refine ⟨_, _, w0, page_id_from_canonical u i _ _ hwf.1, ?_⟩
    have hpage1 : (u.pages.set i
        { h := u16_max, buffer := buf0 ++ page.buffer.drop buf0.length })[i]? =
        some { h := u16_max, buffer := buf0 ++ page.buffer.drop buf0.length } :=
      List.getElem?_set_self (by simpa using hi)
    have f0 := umem_free_eq_some
      { u with
         pages := u.pages.set i
           { h := u16_max, buffer := buf0 ++ page.buffer.drop buf0.length }
         free_page_id := HeadRoom.free_page_id page.h }
      i _ hpage1
    refine ⟨_, _, f0, ?_⟩
    have himod : i % u16_mod = i := Nat.mod_eq_of_lt (by have := hwf.2.1; omega)
    have hhead2 :
        (({ u with
             pages := u.pages.set i
               { h := u16_max, buffer := buf0 ++ page.buffer.drop buf0.length }
             free_page_id := HeadRoom.free_page_id page.h } : Umem).free_page_id).isSome =
          (HeadRoom.free_page_id page.h).isSome := rfl
    set pg2 := if (HeadRoom.free_page_id page.h).isSome then
        { h := HeadRoom.set_free_page_id (HeadRoom.free_page_id page.h),
          buffer := buf0 ++ page.buffer.drop buf0.length }
      else ({ h := u16_max, buffer := buf0 ++ page.buffer.drop buf0.length } : UmemPage)
      with hpg2
    have hpg2buf : pg2.buffer = buf0 ++ page.buffer.drop buf0.length := by
      rw [hpg2]
      split <;> rfl
    have hpage2 : ((u.pages.set i
        { h := u16_max, buffer := buf0 ++ page.buffer.drop buf0.length }).set i pg2)[i]? =
        some pg2 :=
      List.getElem?_set_self (by simpa using hi)
    have hfit1 : buf1.length ≤ pg2.buffer.length := by
      rw [hpg2buf]
      simp only [List.length_append, List.length_drop]
      omega
    have w1 := umem_write_eq_ok
      { pages := (u.pages.set i
          { h := u16_max, buffer := buf0 ++ page.buffer.drop buf0.length }).set i pg2
        alignment := u.alignment
        free_page_id := some (i % u16_mod) }
      buf1 i pg2 (by simp [himod]) hpage2 hfit1
    exact ⟨_, _, w1, page_id_from_canonical _ i _ _ hwf.1⟩
  · have w0 := umem_write_eq_ok umem2 [7] 0 ⟨1, List.replicate 2046 0⟩ rfl rfl
      (by simp [-List.reduceReplicate])
    refine ⟨_, _, w0, rfl, ?_⟩
    refine ⟨_, _, umem_write_eq_ok _ [8] 1 ⟨65535, List.replicate 2046 0⟩ rfl rfl
      (by simp [-List.reduceReplicate]), rfl, rfl, ?_⟩
    refine ⟨_, _, umem_free_eq_some _ 0
      ⟨u16_max, [7] ++ (List.replicate 2046 (0 : Nat)).drop 1⟩ rfl, ?_⟩
    exact ⟨_, _, umem_write_eq_ok _ [3] 0
      ⟨u16_max, [7] ++ (List.replicate 2046 (0 : Nat)).drop 1⟩ rfl rfl
      (by simp [-List.reduceReplicate]), rfl⟩

/-- Witness for C5: the fresh two-page pool, popping page 0, freeing it and
popping it again. -/
theorem c5_write_free_round_trip_witness :
    umem2.buffers_wf ∧ umem2.free_page_id = some 0 ∧ 0 < umem2.pages.length ∧
      ([7] : List Nat).length ≤ umem2.alignment - head_room_size ∧
      ([9] : List Nat).length ≤ umem2.alignment - head_room_size ∧
      ∃ desc u', umem2.write [7] = .ok (desc, u') ∧ umem2.page_id_from desc = 0 ∧
        ∃ desc2 u2, u'.free 0 = some (desc2, u2) ∧
          ∃ desc3 u3, u2.write [9] = .ok (desc3, u3) ∧ u2.page_id_from desc3 = 0 := by
  have hwf : umem2.buffers_wf := by
    refine ⟨by decide, by decide, ?_⟩
    intro page hp
    have hpages : umem2.pages =
        [⟨1, List.replicate 2046 0⟩, ⟨65535, List.replicate 2046 0⟩] := rfl
    rw [hpages] at hp
    simp only [List.mem_cons, List.not_mem_nil, or_false] at hp
    rcases hp with rfl | rfl <;>
      · show (List.replicate 2046 (0 : Nat)).length = umem2.alignment - head_room_size
        rw [List.length_replicate]
        rfl
  exact ⟨hwf, rfl, by decide, by decide, by decide,
    c5_write_free_round_trip.1 umem2 0 [7] [9] hwf rfl (by decide) (by decide) (by decide)⟩

/-- Helper: inversion of a successful `Umem::write`. -/
theorem write_ok_inv (u : Umem) (buf : List Nat) (desc : XdpDesc) (u' : Umem)
    (hw : u.write buf = .ok (desc, u')) :
    ∃ i page, u.free_page_id = some i ∧ u.pages[i]? = some page ∧
      buf.length ≤ page.buffer.length ∧
      desc = { addr := i * u.alignment + head_room_size, len := buf.length,
               options := 0 } ∧
      u' = { u with
              pages := u.pages.set i
                { h := u16_max, buffer := buf ++ page.buffer.drop buf.length }
              free_page_id := HeadRoom.free_page_id page.h } := by
  unfold Umem.write at hw
  split at hw
  · cases hw
  next i hhead =>
    split at hw
    · cases hw
    next page hpage =>
      by_cases hfit : buf.length ≤ page.buffer.length
      · simp only [UmemPage.write_packet, HeadRoom.set_free_page_id, Option.getD_none,
          if_pos hfit, Umem.desc_addr_from, Except.ok.injEq, Prod.mk.injEq] at hw
        exact ⟨i, page, hhead, hpage, hfit, hw.1.symm, hw.2.symm⟩
      · simp only [UmemPage.write_packet, if_neg hfit] at hw
        cases hw

/-- Helper: a `WouldBlock` from `Umem::write` happens exactly on an empty free
list. -/
theorem write_wouldBlock_inv (u : Umem) (buf : List Nat)
    (hw : u.write buf = .error .wouldBlock) : u.free_page_id = none := by
  unfold Umem.write at hw
  split at hw
  next hhead => exact hhead
  next i hhead =>
    split at hw
    · cases hw
    next page hpage =>
      by_cases hfit : buf.length ≤ page.buffer.length
      · simp only [UmemPage.write_packet, if_pos hfit] at hw
        cases hw
      · simp only [UmemPage.write_packet, if_neg hfit] at hw
        cases hw

/-- Helper: inversion of a successful `Umem::free`. -/
theorem free_some_inv (u : Umem) (page_id : Nat) (desc : XdpDesc) (u' : Umem)
    (hf : u.free page_id = some (desc, u')) :
    ∃ page, u.pages[page_id]? = some page := by
  unfold Umem.free at hf
  split at hf
  · cases hf
  next page hpage => exact ⟨page, hpage⟩

/-- Helper: membership from an indexed lookup. -/
theorem mem_of_getElem_eq_some {α : Type} {l : List α} {i : Nat} {a : α}
    (h : l[i]? = some a) : a ∈ l := by
  obtain ⟨hlt, rfl⟩ := List.getElem?_eq_some_iff.mp h
  exact List.getElem_mem hlt

/-- Helper: the canonical descriptor address reduces to `head_room_size` modulo
the alignment. -/
theorem canonical_addr_mod (a i : Nat) (hal : head_room_size < a) :
    (i * a + head_room_size) % a = head_room_size := by
  rw [Nat.mul_comm, Nat.mul_add_mod]
  exact Nat.mod_eq_of_lt hal

/-- Helper: every page of the fresh two-page pool has the full payload size. -/
theorem umem2_buffers_wf : umem2.buffers_wf := by
  refine ⟨by decide, by decide, ?_⟩
  intro page hp
  have hpages : umem2.pages =
      [⟨1, List.replicate 2046 0⟩, ⟨65535, List.replicate 2046 0⟩] := rfl
  rw [hpages] at hp
  simp only [List.mem_cons, List.not_mem_nil, or_false] at hp
  rcases hp with rfl | rfl <;>
    · show (List.replicate 2046 (0 : Nat)).length = umem2.alignment - head_room_size
      rw [List.length_replicate]
      rfl

/-- C6: every descriptor the pool emits — from `write`, from `free` and from
`packet_descriptors` — satisfies `addr % alignment = head_room_size` and
`len ≤ alignment - head_room_size`; and concretely, the fresh
`entries = 4, alignment = 4096` pool has `free_head = Some 0`, headroom links
`0 -> 1 -> 2 -> 3 -> none`, and `packet_descriptors()` is exactly the four
descriptors with addresses `2, 4098, 8194, 12290` and length `4094`. -/
theorem c6_descriptor_canonicality :
    (∀ (u : Umem) (buf : List Nat) (desc : XdpDesc) (u' : Umem),
      head_room_size < u.alignment →
      (∀ page ∈ u.pages, page.buffer.length = u.alignment - head_room_size) →
      u.write buf = .ok (desc, u') →
      desc.addr % u.alignment = head_room_size ∧
        desc.len ≤ u.alignment - head_room_size) ∧
    (∀ (u : Umem) (page_id : Nat) (desc : XdpDesc) (u' : Umem),
      head_room_size < u.alignment →
      u.free page_id = some (desc, u') →
      desc.addr % u.alignment = head_room_size ∧
        desc.len ≤ u.alignment - head_room_size) ∧
    (∀ u : Umem, head_room_size < u.alignment →
      ∀ desc ∈ u.packet_descriptors,
        desc.addr % u.alignment = head_room_size ∧
          desc.len ≤ u.alignment - head_room_size) ∧
    ((Umem.new { entries := 4, alignment := .FourK } true).toOption.map
        (fun u => (u.free_page_id, u.pages.map fun p => HeadRoom.free_page_id p.h,
          u.free_list, u.packet_descriptors)) =
      some (some 0, [some 1, some 2, some 3, none], some [0, 1, 2, 3],
        [{ addr := 2, len := 4094, options := 0 },
         { addr := 4098, len := 4094, options := 0 },
         { addr := 8194, len := 4094, options := 0 },
         { addr := 12290, len := 4094, options := 0 }])) := by
  refine ⟨?_, ?_, ?_, by decide⟩
  · intro u buf desc u' hal hlen hw
    obtain ⟨i, page, hhead, hpage, hfit, hdesc, hu⟩ := write_ok_inv u buf desc u' hw
    subst hdesc
    refine ⟨canonical_addr_mod u.alignment i hal, ?_⟩
    have := hlen page (mem_of_getElem_eq_some hpage)
    simpa using by omega
  · intro u page_id desc u' hal hf
    obtain ⟨page, hpage⟩ := free_some_inv u page_id desc u' hf
    rw [umem_free_eq_some u page_id page hpage] at hf
    cases hf
    exact ⟨canonical_addr_mod u.alignment page_id hal, Nat.le_refl _⟩
  · intro u hal desc hdesc
    simp only [Umem.packet_descriptors, List.mem_map, List.mem_range] at hdesc
    obtain ⟨page_id, hlt, rfl⟩ := hdesc
    exact ⟨canonical_addr_mod u.alignment page_id hal, Nat.le_refl _⟩

/-- Witness for C6: the descriptor actually emitted by a concrete `write` on the
fresh two-page pool is canonical. -/
theorem c6_descriptor_canonicality_witness :
    head_room_size < umem2.alignment ∧
    (∀ page ∈ umem2.pages, page.buffer.length = umem2.alignment - head_room_size) ∧
    ∃ desc u', umem2.write [7] = .ok (desc, u') ∧
      desc.addr % umem2.alignment = head_room_size ∧
      desc.len ≤ umem2.alignment - head_room_size := by
  have w0 := umem_write_eq_ok umem2 [7] 0 ⟨1, List.replicate 2046 0⟩ rfl rfl
    (by simp [-List.reduceReplicate])
  have hprops := c6_descriptor_canonicality.1 umem2 [7] _ _ (by decide)
    umem2_buffers_wf.2.2 w0
  exact ⟨by decide, umem2_buffers_wf.2.2, _, _, w0, hprops.1, hprops.2⟩

/-- Helper: the Completion drain step always succeeds under the contract and
preserves well-formedness; when it leaves the free list empty it was a no-op. -/
theorem cr_drain_spec (s : XdpInner) (hwf : s.umem.buffers_wf)
    (hhead : s.umem.head_wf = true) (hcr : s.cr_ok = true) :
    ∃ sd, cr_drain s = some sd ∧ sd.umem.buffers_wf ∧ sd.umem.head_wf = true ∧
      sd.tx = s.tx ∧ sd.umem.alignment = s.umem.alignment ∧
      sd.umem.pages.length = s.umem.pages.length ∧
      (sd.umem.free_page_id = none → sd.umem = s.umem) := by
  unfold cr_drain
  cases hr : s.cr.read with
  | none => exact ⟨s, rfl, hwf, hhead, rfl, rfl, rfl, fun _ => rfl⟩
  | some dc =>
    obtain ⟨desc, cr'⟩ := dc
    have hpid : s.umem.page_id_from desc < s.umem.pages.length := by
      unfold XdpInner.cr_ok at hcr
      rw [hr] at hcr
      simpa using hcr
    obtain ⟨page, hpage, hplen⟩ := buffers_wf_getElem s.umem _ hwf hpid
    simp only [umem_free_eq_some s.umem _ page hpage]
    refine ⟨_, rfl, ⟨hwf.1, by simpa using hwf.2.1, ?_⟩, ?_, rfl, rfl,
      by simp, ?_⟩
    · intro p hp
      rcases List.mem_or_eq_of_mem_set hp with h | h
      · exact hwf.2.2 p h
      · subst h
        split
        · exact hwf.2.2 page (mem_of_getElem_eq_some hpage)
        · exact hwf.2.2 page (mem_of_getElem_eq_some hpage)
    · unfold Umem.head_wf
      simp only [List.length_set, decide_eq_true_eq]
      exact lt_of_le_of_lt (Nat.mod_le _ _) hpid
    · intro h
      cases h

/-- Helper: under well-formedness and a fitting buffer, `Umem::write` either
would-blocks on an empty free list or succeeds on the head page. -/
theorem write_cases (u : Umem) (buf : List Nat) (hwf : u.buffers_wf)
    (hh : u.head_wf = true) (hfit : buf.length ≤ u.alignment - head_room_size) :
    (u.free_page_id = none ∧ u.write buf = .error .wouldBlock) ∨
    (∃ i page, u.free_page_id = some i ∧ u.pages[i]? = some page ∧ i < u.pages.length ∧
      u.write buf = .ok
        ({ addr := i * u.alignment + head_room_size, len := buf.length, options := 0 },
         { u with
            pages := u.pages.set i
              { h := u16_max, buffer := buf ++ page.buffer.drop buf.length }
            free_page_id := HeadRoom.free_page_id page.h })) := by
  cases hhead : u.free_page_id with
  | none =>
    left
    refine ⟨rfl, ?_⟩
    unfold Umem.write
    rw [hhead]
  | some i =>
    have hi : i < u.pages.length := by
      unfold Umem.head_wf at hh
      rw [hhead] at hh
      simpa using hh
    obtain ⟨page, hpage, hplen⟩ := buffers_wf_getElem u i hwf hi
    right
    exact ⟨i, page, rfl, hpage, hi,
      umem_write_eq_ok u buf i page hhead hpage (by omega)⟩

/-- C8: `TxToken::consume(len, f)` always returns the value produced by `f`
(would-block conditions are never propagated).  When `umem.write` would-blocks,
the frame is silently dropped and both the pool and the TX ring are exactly as at
entry (the Completion drain must have been a no-op, or the free list could not be
empty).  When the TX-ring publish fails, the freshly popped chunk is pushed back,
restoring the free list of the drained state, and the TX ring stays unchanged. -/
theorem c8_tx_error_absorption {α : Type} (s : XdpInner) (len : Nat)
    (f : List Nat → α × List Nat)
    (hwf : s.umem.buffers_wf) (hh : s.umem.head_wf = true) (hcr : s.cr_ok = true)
    (hbuf : (f (List.replicate len 0)).2.length ≤ s.umem.alignment - head_room_size) :
    ∃ s', TxToken.consume s len f = .ok ((f (List.replicate len 0)).1, s') ∧
      ∀ sd, cr_drain s = some sd →
        (sd.umem.write (f (List.replicate len 0)).2 = .error .wouldBlock →
          s'.umem = s.umem ∧ s'.tx = s.tx) ∧
        (∀ desc umem', sd.umem.write (f (List.replicate len 0)).2 = .ok (desc, umem') →
          sd.tx.write desc = .error .wouldBlock →
          s'.umem.free_list = sd.umem.free_list ∧ s'.tx = s.tx) := by
  obtain ⟨sd, hdr, hwfd, hhd, htxd, halign, hlend, hnoop⟩ := cr_drain_spec s hwf hh hcr
  have hfit : (f (List.replicate len 0)).2.length ≤ sd.umem.alignment - head_room_size := by
    rw [halign]
    exact hbuf
  rcases write_cases sd.umem (f (List.replicate len 0)).2 hwfd hhd hfit with
    ⟨hnone, hwb⟩ | ⟨i, page, hheadi, hpage, hi, hwok⟩
  · refine ⟨sd, ?_, ?_⟩
    · simp only [TxToken.consume, hdr, hwb]
    · intro sd' hsd'
      rw [hdr] at hsd'
      cases hsd'
      refine ⟨fun _ => ⟨hnoop hnone, htxd⟩, ?_⟩
      intro desc umem' hw2 _
      rw [hwb] at hw2
      cases hw2
  · cases htx : sd.tx.write
        { addr := i * sd.umem.alignment + head_room_size,
          len := (f (List.replicate len 0)).2.length, options := 0 } with
    | ok tx' =>
      refine ⟨{ sd with
          umem :=
            { sd.umem with
               pages := sd.umem.pages.set i
                 { h := u16_max,
                   buffer := (f (List.replicate len 0)).2 ++
                     page.buffer.drop (f (List.replicate len 0)).2.length }
               free_page_id := HeadRoom.free_page_id page.h }
          tx := tx' }, ?_, ?_⟩
      · simp only [TxToken.consume, hdr, hwok, htx]
      · intro sd' hsd'
        rw [hdr] at hsd'
        cases hsd'
        refine ⟨?_, ?_⟩
        · intro hw2
          rw [hwok] at hw2
          cases hw2
        · intro desc umem' hw2 htx2
          rw [hwok] at hw2
          cases hw2
          rw [htx] at htx2
          cases htx2
    | error e =>
      cases e
      have hpidc :
          ({ sd.umem with
              pages := sd.umem.pages.set i
                { h := u16_max,
                  buffer := (f (List.replicate len 0)).2 ++
                    page.buffer.drop (f (List.replicate len 0)).2.length }
              free_page_id := HeadRoom.free_page_id page.h } : Umem).page_id_from
            { addr := i * sd.umem.alignment + head_room_size,
              len := (f (List.replicate len 0)).2.length, options := 0 } = i := by
        refine page_id_from_canonical _ i _ _ ?_
        show head_room_size < sd.umem.alignment
        rw [halign]
        exact hwf.1
      have hpg1 :
          (sd.umem.pages.set i
            { h := u16_max,
              buffer := (f (List.replicate len 0)).2 ++
                page.buffer.drop (f (List.replicate len 0)).2.length })[i]? =
          some { h := u16_max,
                 buffer := (f (List.replicate len 0)).2 ++
                   page.buffer.drop (f (List.replicate len 0)).2.length } :=
        List.getElem?_set_self (by simpa using hi)
      have hfree := umem_free_eq_some
        { sd.umem with
           pages := sd.umem.pages.set i
             { h := u16_max,
               buffer := (f (List.replicate len 0)).2 ++
                 page.buffer.drop (f (List.replicate len 0)).2.length }
           free_page_id := HeadRoom.free_page_id page.h }
        i _ hpg1
      refine ⟨{ sd with
          umem :=
            { pages := (sd.umem.pages.set i
                { h := u16_max,
                  buffer := (f (List.replicate len 0)).2 ++
                    page.buffer.drop (f (List.replicate len 0)).2.length }).set i
                (if (HeadRoom.free_page_id page.h).isSome then
                  { h := HeadRoom.set_free_page_id (HeadRoom.free_page_id page.h),
                    buffer := (f (List.replicate len 0)).2 ++
                      page.buffer.drop (f (List.replicate len 0)).2.length }
                 else
                  { h := u16_max,
                    buffer := (f (List.replicate len 0)).2 ++
                      page.buffer.drop (f (List.replicate len 0)).2.length })
              alignment := sd.umem.alignment
              free_page_id := some (i % u16_mod) } }, ?_, ?_⟩
      · simp only [TxToken.consume, hdr, hwok, htx, hpidc, hfree]
      · intro sd' hsd'
        rw [hdr] at hsd'
        cases hsd'
        refine ⟨?_, ?_⟩
        · intro hw2
          rw [hwok] at hw2
          cases hw2
        · intro desc umem' hw2 htx2
          rw [hwok] at hw2
          cases hw2
          refine ⟨?_, htxd⟩
          show Umem.free_list
            { pages := (sd.umem.pages.set i
                { h := u16_max,
                  buffer := (f (List.replicate len 0)).2 ++
                    page.buffer.drop (f (List.replicate len 0)).2.length }).set i
                (if (HeadRoom.free_page_id page.h).isSome then
                  { h := HeadRoom.set_free_page_id (HeadRoom.free_page_id page.h),
                    buffer := (f (List.replicate len 0)).2 ++
                      page.buffer.drop (f (List.replicate len 0)).2.length }
                 else
                  { h := u16_max,
                    buffer := (f (List.replicate len 0)).2 ++
                      page.buffer.drop (f (List.replicate len 0)).2.length })
              alignment := sd.umem.alignment
              free_page_id := some (i % u16_mod) } = sd.umem.free_list
          have hph :
              (if (HeadRoom.free_page_id page.h).isSome then
                ({ h := HeadRoom.set_free_page_id (HeadRoom.free_page_id page.h),
                   buffer := (f (List.replicate len 0)).2 ++
                     page.buffer.drop (f (List.replicate len 0)).2.length } : UmemPage)
               else
                { h := u16_max,
                  buffer := (f (List.replicate len 0)).2 ++
                    page.buffer.drop (f (List.replicate len 0)).2.length }).h = page.h := by
            by_cases hcase : page.h = u16_max
            · simp [HeadRoom.free_page_id, hcase, HeadRoom.set_free_page_id]
            · simp [HeadRoom.free_page_id, hcase, HeadRoom.set_free_page_id]
          unfold Umem.free_list
          rw [List.set_set, List.map_set, hph]
          have hmap : (sd.umem.pages.map fun p => p.h).set i page.h =
              sd.umem.pages.map fun p => p.h := by
            refine list_set_of_getElem_eq _ _ _ ?_
            rw [List.getElem?_map, hpage]
            rfl
          rw [hmap]
          have hmod : i % u16_mod = i :=
            Nat.mod_eq_of_lt (by have := hwfd.2.1; omega)
          rw [List.length_set, hmod, hheadi]

/-- Witness for C8: a one-byte frame submitted on the fresh two-page adapter
state with all rings empty. -/
theorem c8_tx_error_absorption_witness :
    sys2.umem.buffers_wf ∧ sys2.umem.head_wf = true ∧ sys2.cr_ok = true ∧
      (((fun b => ((42 : Nat), b)) (List.replicate 1 0)).2.length ≤
        sys2.umem.alignment - head_room_size) ∧
      ∃ s', TxToken.consume sys2 1 (fun b => ((42 : Nat), b)) =
          .ok ((((fun b => ((42 : Nat), b)) (List.replicate 1 0)).1), s') ∧
        ∀ sd, cr_drain sys2 = some sd →
          (sd.umem.write (((fun b => ((42 : Nat), b)) (List.replicate 1 0)).2) =
              .error .wouldBlock →
            s'.umem = sys2.umem ∧ s'.tx = sys2.tx) ∧
          (∀ desc umem',
            sd.umem.write (((fun b => ((42 : Nat), b)) (List.replicate 1 0)).2) =
              .ok (desc, umem') →
            sd.tx.write desc = .error .wouldBlock →
            s'.umem.free_list = sd.umem.free_list ∧ s'.tx = sys2.tx) :=
  ⟨umem2_buffers_wf, by decide, by decide, by decide,
    c8_tx_error_absorption sys2 1 (fun b => ((42 : Nat), b)) umem2_buffers_wf
      (by decide) (by decide) (by decide)⟩
